import Mathlib

/-!
Verification of the custom state-space configuration logic in the examples of
this repository, against its design specification.

Part 1 embeds `LocalLinearTrend` from
`examples/python/statespace_local_linear_trend.py`: a subclass of the library
class `MLEModel` that fixes the structural matrices of a local linear trend
model at construction and writes the three variance parameters into the
covariance matrices on every `update` call.  Real-valued numpy arrays are
embedded as functions/matrices over `ℝ`; `x ** 0.5` on a non-negative float
array is `Real.sqrt` componentwise.

Part 2 embeds `simulate_seasonal_term` from
`examples/python/statespace_seasonal.py`, including its error behaviour
(the leading `assert`, Python's `ZeroDivisionError` on `2*np.pi/float(0)`,
and numpy's `ValueError` on `np.random.randn(n)`/`np.zeros(n)` with `n < 0`).
Periodicity and cycle count are embedded as exact rationals, the stream of
`np.random.randn()` draws as an explicit input function `ℕ → ℝ`.
-/

set_option maxHeartbeats 1000000

/-- The initialization policy passed to the `MLEModel` constructor
(the Python code passes the string `"approximate_diffuse"`). -/
inductive Initialization where
  | approximate_diffuse
  | stationary
  | known
  deriving DecidableEq

/-- The state-space matrices held by `self.ssm` that this model touches.
Shapes for the local linear trend model: one observed series
(`k_endog = 1`), two states, two state shocks.  Per the library, all
matrices start at zero; the subclass then sets `design`, `transition`
and `selection` in `__init__`. -/
@[ext]
structure StateSpace where
  design : Matrix (Fin 1) (Fin 2) ℝ
  obs_intercept : Fin 1 → ℝ
  obs_cov : Matrix (Fin 1) (Fin 1) ℝ
  transition : Matrix (Fin 2) (Fin 2) ℝ
  state_intercept : Fin 2 → ℝ
  selection : Matrix (Fin 2) (Fin 2) ℝ
  state_cov : Matrix (Fin 2) (Fin 2) ℝ

/-- The `LocalLinearTrend` model object: the constructor arguments it
forwards to `MLEModel.__init__` plus its state-space matrices. -/
@[ext]
structure LocalLinearTrend where
  endog : List ℝ
  k_states : ℕ
  k_posdef : ℕ
  initialization : Initialization
  loglikelihood_burn : ℕ
  ssm : StateSpace

namespace LocalLinearTrend

/-- `LocalLinearTrend.__init__(endog)`: sets `k_states = k_posdef = 2`,
passes `initialization='approximate_diffuse'` and
`loglikelihood_burn=k_states` to the base constructor, then overwrites
`design` with `[1, 0]`, `transition` with `[[1, 1], [0, 1]]` and
`selection` with `np.eye(2)`; all other matrices keep the library
default of all zeros. -/
def init (endog : List ℝ) : LocalLinearTrend :=
  let k_states : ℕ := 2
  let k_posdef : ℕ := 2
  { endog := endog
    k_states := k_states
    k_posdef := k_posdef
    initialization := Initialization.approximate_diffuse
    loglikelihood_burn := k_states
    ssm :=
      { design := !![1, 0]
        obs_intercept := 0
        obs_cov := 0
        transition := !![1, 1; 0, 1]
        state_intercept := 0
        selection := 1
        state_cov := 0 } }

/-- `param_names`: fixed labels for the three parameters. -/
def param_names : List String :=
  ["sigma2.measurement", "sigma2.level", "sigma2.trend"]

/-- `np.mean` of a 1-d array. -/
noncomputable def npMean (l : List ℝ) : ℝ := l.sum / l.length

/-- `np.std` of a 1-d array: population standard deviation (`ddof = 0`),
the square root of the mean squared deviation from the mean. -/
noncomputable def npStd (l : List ℝ) : ℝ :=
  Real.sqrt ((l.map (fun x => (x - npMean l) ^ 2)).sum / l.length)

/-- `start_params`: `[np.std(self.endog)] * 3`. -/
noncomputable def start_params (m : LocalLinearTrend) : List ℝ :=
  List.replicate 3 (npStd m.endog)

/-- `transform_params(unconstrained) = unconstrained ** 2` componentwise. -/
def transform_params (unconstrained : Fin 3 → ℝ) : Fin 3 → ℝ :=
  fun i => unconstrained i ^ 2

/-- `untransform_params(constrained) = constrained ** 0.5` componentwise
(on the non-negative arrays this model produces, `** 0.5` is the square
root). -/
noncomputable def untransform_params (constrained : Fin 3 → ℝ) : Fin 3 → ℝ :=
  fun i => Real.sqrt (constrained i)

/-- `update(params)`: after the base-class call returns `params`
unchanged, write `params[0]` into `obs_cov[0, 0]` and `params[1:]` into
the diagonal cells `(0,0)` and `(1,1)` of `state_cov`
(`self._state_cov_idx = ('state_cov',) + np.diag_indices(k_posdef)`);
every other cell of every matrix is left as it was. -/
def update (m : LocalLinearTrend) (params : Fin 3 → ℝ) : LocalLinearTrend :=
  { m with
    ssm :=
      { m.ssm with
        obs_cov := fun i j => if i = 0 ∧ j = 0 then params 0 else m.ssm.obs_cov i j
        state_cov := fun i j => if i = j then params i.succ else m.ssm.state_cov i j } }

end LocalLinearTrend

/-- The exceptions `simulate_seasonal_term` can raise: the `assert` on
`duration == int(duration)`, Python's `ZeroDivisionError` from
`2 * np.pi / float(periodicity)` when the periodicity is zero, and
numpy's `ValueError` from `np.random.randn(n)` or `np.zeros(n)` when
`n` is negative. -/
inductive SimErr where
  | assertionError
  | zeroDivisionError
  | valueError
  deriving DecidableEq

/-- The harmonic count actually used: `harmonics if harmonics else
int(np.floor(periodicity / 2))` — Python truthiness, so both `None`
and `0` fall back to `⌊periodicity / 2⌋`. -/
def effectiveHarmonics (periodicity : ℚ) (harmonics : Option ℤ) : ℤ :=
  match harmonics with
  | some k => if k ≠ 0 then k else ⌊periodicity / 2⌋
  | none => ⌊periodicity / 2⌋

/-- The pair `(gamma_jt, gamma_star_jt)` after `t` iterations of the outer
loop, as functions of the harmonic index `i = j - 1 < H`.  `noise` is the
stream of `np.random.randn()` draws in the order the code consumes them:
`H` draws for the initial `gamma_jt`, `H` for the initial `gamma_star_jt`,
then two per harmonic per timestep. -/
noncomputable def gammaPair (lam σ : ℝ) (noise : ℕ → ℝ) (H : ℕ) :
    ℕ → ((ℕ → ℝ) × (ℕ → ℝ))
  | 0 => (fun i => σ * noise i, fun i => σ * noise (H + i))
  | t + 1 =>
    let g := gammaPair lam σ noise H t
    (fun i =>
        g.1 i * Real.cos (lam * (i + 1)) + g.2 i * Real.sin (lam * (i + 1)) +
          σ * noise (2 * H + 2 * H * t + 2 * i),
     fun i =>
        -g.1 i * Real.sin (lam * (i + 1)) + g.2 i * Real.cos (lam * (i + 1)) +
          σ * noise (2 * H + 2 * H * t + 2 * i + 1))

/-- `series[t] = np.sum(gamma_jtp1)` where `gamma_jtp1` is the state
produced during iteration `t`, i.e. the state after `t + 1` steps. -/
noncomputable def seasonalSeries (lam σ : ℝ) (noise : ℕ → ℝ) (H T : ℕ) : List ℝ :=
  (List.range T).map fun t => ∑ i ∈ Finset.range H, (gammaPair lam σ noise H (t + 1)).1 i

/-- `simulate_seasonal_term(periodicity, total_cycles, noise_std, harmonics)`
with the random draws supplied by `noise`.  In source order:
`duration = periodicity * total_cycles`; `assert duration == int(duration)`;
resolve `harmonics` by truthiness; `lambda_p = 2*np.pi/float(periodicity)`
(raises `ZeroDivisionError` when `periodicity == 0`);
`np.random.randn(harmonics)` (raises `ValueError` when negative);
`np.zeros(100 * duration)` (raises `ValueError` when negative); run the
recurrence for `100 * duration` steps and return `series[-duration:]`. -/
noncomputable def simulate_seasonal_term (periodicity total_cycles : ℚ)
    (noise_std : ℝ) (harmonics : Option ℤ) (noise : ℕ → ℝ) :
    Except SimErr (List ℝ) :=
  if (periodicity * total_cycles).den ≠ 1 then Except.error SimErr.assertionError
  else if periodicity = 0 then Except.error SimErr.zeroDivisionError
  else if effectiveHarmonics periodicity harmonics < 0 then Except.error SimErr.valueError
  else if (periodicity * total_cycles).num < 0 then Except.error SimErr.valueError
  else
    Except.ok
      ((seasonalSeries (2 * Real.pi / (periodicity : ℝ)) noise_std noise
          (effectiveHarmonics periodicity harmonics).toNat
          (100 * (periodicity * total_cycles).num.toNat)).drop
        (99 * (periodicity * total_cycles).num.toNat))

/-! ### Claim theorems: LocalLinearTrend -/

/-- C1: for every non-negative 3-vector `v`,
`transform_params (untransform_params v) = v`, and for every real 3-vector
`u`, `untransform_params (transform_params u)` is the componentwise
absolute value of `u` (the round trip holds up to sign, since squaring
discards sign). -/
theorem transform_untransform_round_trip :
    (∀ v : Fin 3 → ℝ, (∀ i, 0 ≤ v i) →
      LocalLinearTrend.transform_params (LocalLinearTrend.untransform_params v) = v) ∧
    (∀ u : Fin 3 → ℝ,
      LocalLinearTrend.untransform_params (LocalLinearTrend.transform_params u) =
        fun i => |u i|) := by
  constructor
  · intro v hv
    funext i
    simp only [LocalLinearTrend.transform_params, LocalLinearTrend.untransform_params]
    exact Real.sq_sqrt (hv i)
  · intro u
    funext i
    simp only [LocalLinearTrend.transform_params, LocalLinearTrend.untransform_params]
    exact Real.sqrt_sq_eq_abs (u i)

/-- Witness for C1 at the concrete vectors `(1, 4, 9)` and `(-2, 0, 3)`. -/
theorem transform_untransform_round_trip_witness :
    ((∀ i, (0 : ℝ) ≤ (![1, 4, 9] : Fin 3 → ℝ) i) ∧
      LocalLinearTrend.transform_params (LocalLinearTrend.untransform_params ![1, 4, 9]) =
        ![1, 4, 9]) ∧
    LocalLinearTrend.untransform_params (LocalLinearTrend.transform_params ![-2, 0, 3]) =
      fun i => |(![-2, 0, 3] : Fin 3 → ℝ) i| := by
  have h : ∀ i, (0 : ℝ) ≤ (![1, 4, 9] : Fin 3 → ℝ) i := by
    intro i
    fin_cases i <;> norm_num
  exact ⟨⟨h, transform_untransform_round_trip.1 _ h⟩,
    transform_untransform_round_trip.2 ![-2, 0, 3]⟩

/-- C2: after `update (a, b, c)` on a freshly constructed model, the
observation-noise covariance cell `(0,0)` is `a`, the state-noise
covariance diagonal is `(b, c)`, and its off-diagonal entries are `0`. -/
theorem update_writes_covariances (endog : List ℝ) (a b c : ℝ) :
    ((LocalLinearTrend.init endog).update ![a, b, c]).ssm.obs_cov 0 0 = a ∧
    ((LocalLinearTrend.init endog).update ![a, b, c]).ssm.state_cov 0 0 = b ∧
    ((LocalLinearTrend.init endog).update ![a, b, c]).ssm.state_cov 1 1 = c ∧
    ((LocalLinearTrend.init endog).update ![a, b, c]).ssm.state_cov 0 1 = 0 ∧
    ((LocalLinearTrend.init endog).update ![a, b, c]).ssm.state_cov 1 0 = 0 := by
  refine ⟨?_, ?_, ?_, ?_, ?_⟩ <;>
    simp [LocalLinearTrend.update, LocalLinearTrend.init, Fin.ext_iff]

/-- C3: however many times `update` is called with whatever parameters,
the design matrix stays `(1, 0)`, the transition matrix stays
`[[1, 1], [0, 1]]` and the selection matrix stays the identity, exactly
as set at construction. -/
theorem structural_matrices_invariant (endog : List ℝ) (ps : List (Fin 3 → ℝ)) :
    (ps.foldl LocalLinearTrend.update (LocalLinearTrend.init endog)).ssm.design = !![1, 0] ∧
    (ps.foldl LocalLinearTrend.update (LocalLinearTrend.init endog)).ssm.transition =
      !![1, 1; 0, 1] ∧
    (ps.foldl LocalLinearTrend.update (LocalLinearTrend.init endog)).ssm.selection = 1 := by
  have key : ∀ (qs : List (Fin 3 → ℝ)) (m : LocalLinearTrend),
      (qs.foldl LocalLinearTrend.update m).ssm.design = m.ssm.design ∧
      (qs.foldl LocalLinearTrend.update m).ssm.transition = m.ssm.transition ∧
      (qs.foldl LocalLinearTrend.update m).ssm.selection = m.ssm.selection := by
    intro qs
    induction qs with
    | nil => exact fun m => ⟨rfl, rfl, rfl⟩
    | cons q qs ih => exact fun m => ih (m.update q)
  exact key ps (LocalLinearTrend.init endog)

/-- C4: the default starting parameter vector is the sample standard
deviation of the observed series repeated three times. -/
theorem start_params_is_std_repeated (endog : List ℝ) :
    (LocalLinearTrend.init endog).start_params =
      [LocalLinearTrend.npStd endog, LocalLinearTrend.npStd endog,
        LocalLinearTrend.npStd endog] :=
  rfl

/-- C6: `update` is idempotent — applying it twice with the same
parameter vector, from any model state, equals applying it once. -/
theorem update_idempotent (m : LocalLinearTrend) (p : Fin 3 → ℝ) :
    (m.update p).update p = m.update p := by
  apply LocalLinearTrend.ext <;> try rfl
  apply StateSpace.ext <;> try rfl
  · funext i j
    by_cases h : i = 0 ∧ j = 0 <;> simp [LocalLinearTrend.update, h]
  · funext i j
    by_cases h : i = j <;> simp [LocalLinearTrend.update, h]

/-- C7: every component of `transform_params u` is non-negative. -/
theorem transform_params_nonneg (u : Fin 3 → ℝ) (i : Fin 3) :
    0 ≤ LocalLinearTrend.transform_params u i :=
  sq_nonneg (u i)

/-- C8: construction uses state dimension 2, state-noise dimension 2,
the approximate-diffuse initialization policy, and a log-likelihood
burn-in equal to the state dimension. -/
theorem init_configuration (endog : List ℝ) :
    (LocalLinearTrend.init endog).k_states = 2 ∧
    (LocalLinearTrend.init endog).k_posdef = 2 ∧
    (LocalLinearTrend.init endog).initialization = Initialization.approximate_diffuse ∧
    (LocalLinearTrend.init endog).loglikelihood_burn =
      (LocalLinearTrend.init endog).k_states :=
  ⟨rfl, rfl, rfl, rfl⟩

/-- Sums of lists of non-negative reals are positive as soon as one
member is positive. -/
lemma list_sum_pos_of_mem :
    ∀ l : List ℝ, (∀ x ∈ l, 0 ≤ x) → ∀ y ∈ l, 0 < y → 0 < l.sum := by
  intro l
  induction l with
  | nil =>
    intro _ y hy
    simp at hy
  | cons z zs ih =>
    intro h0 y hy hypos
    rcases List.mem_cons.mp hy with h | h
    · have hzs : 0 ≤ zs.sum :=
        List.sum_nonneg fun x hx => h0 x (List.mem_cons_of_mem _ hx)
      rw [List.sum_cons]
      subst h
      linarith
    · have hz : 0 ≤ z := h0 z (List.mem_cons_self z zs)
      have hs := ih (fun x hx => h0 x (List.mem_cons_of_mem _ hx)) y h hypos
      rw [List.sum_cons]
      linarith

/-- C5 counterexample: on the constant series `[1, 1]` the standard
deviation is zero, so every component of the default starting parameter
vector is exactly zero. -/
theorem start_params_zero_on_constant_series :
    (LocalLinearTrend.init [(1 : ℝ), 1]).start_params = [0, 0, 0] := by
  have hmean : LocalLinearTrend.npMean [(1 : ℝ), 1] = 1 := by
    simp [LocalLinearTrend.npMean]
  have hstd : LocalLinearTrend.npStd [(1 : ℝ), 1] = 0 := by
    simp [LocalLinearTrend.npStd, hmean]
  simp [LocalLinearTrend.start_params, LocalLinearTrend.init, hstd,
    List.replicate_succ]

/-- C5 (amended): for every input series that is not constant — it
contains two distinct values — no component of the default starting
parameter vector is zero. -/
theorem start_params_nonzero_of_nonconstant (endog : List ℝ) (a b : ℝ)
    (ha : a ∈ endog) (hb : b ∈ endog) (hab : a ≠ b) :
    ∀ x ∈ (LocalLinearTrend.init endog).start_params, x ≠ 0 := by
  intro x hx
  obtain ⟨c, hc, hcne⟩ : ∃ c ∈ endog, c ≠ LocalLinearTrend.npMean endog := by
    rcases eq_or_ne a (LocalLinearTrend.npMean endog) with h | h
    · exact ⟨b, hb, fun hbe => hab (h.trans hbe.symm)⟩
    · exact ⟨a, ha, h⟩
  have hlen : 0 < (endog.length : ℝ) := by
    have h1 : 0 < endog.length := by
      cases endog with
      | nil => simp at ha
      | cons z zs => simp
    exact_mod_cast h1
  have hsum :
      0 < ((endog.map (fun t => (t - LocalLinearTrend.npMean endog) ^ 2)).sum) := by
    apply list_sum_pos_of_mem _ _ ((c - LocalLinearTrend.npMean endog) ^ 2)
    · exact List.mem_map_of_mem _ hc
    · have hne : c - LocalLinearTrend.npMean endog ≠ 0 := sub_ne_zero.mpr hcne
      exact lt_of_le_of_ne (sq_nonneg _) (Ne.symm (pow_ne_zero 2 hne))
    · intro t ht
      obtain ⟨w, _, rfl⟩ := List.mem_map.mp ht
      exact sq_nonneg _
  have hstd : 0 < LocalLinearTrend.npStd endog := by
    unfold LocalLinearTrend.npStd
    exact Real.sqrt_pos.mpr (div_pos hsum hlen)
  have hx' : x ∈ List.replicate 3 (LocalLinearTrend.npStd endog) := hx
  rw [List.eq_of_mem_replicate hx']
  exact ne_of_gt hstd

/-- Witness for C5 (amended) on the series `[0, 2]`. -/
theorem start_params_nonzero_witness :
    ((0 : ℝ) ∈ [(0 : ℝ), 2] ∧ (2 : ℝ) ∈ [(0 : ℝ), 2] ∧ (0 : ℝ) ≠ 2) ∧
      ∀ x ∈ (LocalLinearTrend.init [(0 : ℝ), 2]).start_params, x ≠ 0 := by
  have h1 : (0 : ℝ) ∈ [(0 : ℝ), 2] := by simp
  have h2 : (2 : ℝ) ∈ [(0 : ℝ), 2] := by simp
  have h3 : (0 : ℝ) ≠ 2 := by norm_num
  exact ⟨⟨h1, h2, h3⟩, start_params_nonzero_of_nonconstant _ 0 2 h1 h2 h3⟩

/-! ### Claim theorems: simulate_seasonal_term -/

/-- The simulated series has one entry per timestep. -/
lemma seasonalSeries_length (lam σ : ℝ) (noise : ℕ → ℝ) (H T : ℕ) :
    (seasonalSeries lam σ noise H T).length = T := by
  simp [seasonalSeries]

/-- C9 counterexample: at periodicity `0` and cycle count `1` the product
is the integer `0`, yet the call raises `ZeroDivisionError` (from
`2 * np.pi / float(periodicity)`) instead of returning an array of
length `0`. -/
theorem simulate_seasonal_zero_periodicity :
    (0 : ℚ) * 1 = ((0 : ℤ) : ℚ) ∧
      simulate_seasonal_term 0 1 1 none (fun _ => 0) =
        Except.error SimErr.zeroDivisionError := by
  refine ⟨by norm_num, ?_⟩
  have hden : ((0 : ℚ) * 1).den = 1 := by norm_num
  rw [simulate_seasonal_term, if_neg (by simp [hden]), if_pos rfl]

/-- C9 (amended): for every positive periodicity `p`, non-negative cycle
count `c` and non-negative harmonics request, the call raises an
assertion error iff `p * c` is not an integer; when `p * c` is the
integer `n`, it returns an array of length exactly `n` (the burn-in
prefix of `99 * p * c` simulated steps is discarded). -/
theorem simulate_seasonal_assert_and_length (p c : ℚ) (σ : ℝ) (h : Option ℤ)
    (noise : ℕ → ℝ) (hp : 0 < p) (hc : 0 ≤ c)
    (hh : ∀ k : ℤ, h = some k → 0 ≤ k) :
    (simulate_seasonal_term p c σ h noise = Except.error SimErr.assertionError ↔
      ¬ ∃ n : ℤ, p * c = (n : ℚ)) ∧
    (∀ n : ℤ, p * c = (n : ℚ) →
      ∃ l, simulate_seasonal_term p c σ h noise = Except.ok l ∧
        (l.length : ℤ) = n) := by
  have hpne : p ≠ 0 := ne_of_gt hp
  have hp2 : (0 : ℚ) ≤ p / 2 := by positivity
  have hH : 0 ≤ effectiveHarmonics p h := by
    cases h with
    | none => exact Int.floor_nonneg.mpr hp2
    | some k =>
      by_cases hk : k = 0
      · simpa [effectiveHarmonics, hk] using Int.floor_nonneg.mpr hp2
      · simpa [effectiveHarmonics, hk] using hh k rfl
  have hd : 0 ≤ (p * c).num := Rat.num_nonneg.mpr (mul_nonneg hp.le hc)
  by_cases hden : (p * c).den = 1
  · have hres : simulate_seasonal_term p c σ h noise =
        Except.ok ((seasonalSeries (2 * Real.pi / (p : ℝ)) σ noise
            (effectiveHarmonics p h).toNat (100 * (p * c).num.toNat)).drop
          (99 * (p * c).num.toNat)) := by
      rw [simulate_seasonal_term, if_neg (by simp [hden]), if_neg hpne,
        if_neg (not_lt.mpr hH), if_neg (not_lt.mpr hd)]
    constructor
    · constructor
      · intro habs
        rw [hres] at habs
        exact absurd habs (by simp)
      · intro hni
        exact absurd ⟨(p * c).num, (Rat.coe_int_num_of_den_eq_one hden).symm⟩ hni
    · intro n hn
      refine ⟨_, hres, ?_⟩
      have hnum : (p * c).num = n := by
        have : ((p * c).num : ℚ) = (n : ℚ) :=
          (Rat.coe_int_num_of_den_eq_one hden).trans hn
        exact_mod_cast this
      rw [List.length_drop, seasonalSeries_length]
      omega
  · have hres : simulate_seasonal_term p c σ h noise =
        Except.error SimErr.assertionError := by
      rw [simulate_seasonal_term, if_pos hden]
    constructor
    · constructor
      · intro _
        rintro ⟨n, hn⟩
        exact hden (by rw [hn]; exact Rat.den_intCast n)
      · intro _
        exact hres
    · intro n hn
      exact absurd (by rw [hn]; exact Rat.den_intCast n) hden

/-- Witness for C9 (amended) at periodicity `2`, cycle count `3`, default
harmonics, zero noise. -/
theorem simulate_seasonal_assert_and_length_witness :
    ((0 : ℚ) < 2 ∧ (0 : ℚ) ≤ 3 ∧ ∀ k : ℤ, (none : Option ℤ) = some k → 0 ≤ k) ∧
    ((simulate_seasonal_term 2 3 1 none (fun _ => 0) =
        Except.error SimErr.assertionError ↔ ¬ ∃ n : ℤ, (2 : ℚ) * 3 = (n : ℚ)) ∧
      (∀ n : ℤ, (2 : ℚ) * 3 = (n : ℚ) →
        ∃ l, simulate_seasonal_term 2 3 1 none (fun _ => 0) = Except.ok l ∧
          (l.length : ℤ) = n)) := by
  have h1 : (0 : ℚ) < 2 := by norm_num
  have h2 : (0 : ℚ) ≤ 3 := by norm_num
  have h3 : ∀ k : ℤ, (none : Option ℤ) = some k → 0 ≤ k := by
    intro k hk
    simp at hk
  exact ⟨⟨h1, h2, h3⟩,
    simulate_seasonal_assert_and_length 2 3 1 none (fun _ => 0) h1 h2 h3⟩

/-- C10 counterexample: at periodicity `1`, passing `harmonics = 0`
selects `⌊1 / 2⌋ = 0` harmonics, and the simulation succeeds — a
zero-harmonic simulation is obtained by requesting zero harmonics. -/
theorem zero_harmonics_simulation_runs :
    effectiveHarmonics 1 (some 0) = 0 ∧
      (simulate_seasonal_term 1 1 1 (some 0) (fun _ => 0)).isOk = true := by
  have hfl : ⌊(1 : ℚ) / 2⌋ = 0 := by
    rw [Int.floor_eq_zero_iff]
    constructor <;> norm_num
  have heff : effectiveHarmonics 1 (some 0) = 0 := by
    simpa [effectiveHarmonics] using hfl
  refine ⟨heff, ?_⟩
  have hden : ((1 : ℚ) * 1).den = 1 := by norm_num
  have hnum : ¬ ((1 : ℚ) * 1).num < 0 := by norm_num
  rw [simulate_seasonal_term, if_neg (by simp [hden]),
    if_neg (by norm_num : ¬ (1 : ℚ) = 0), if_neg (by rw [heff]; exact lt_irrefl 0),
    if_neg hnum]
  rfl

/-- C10 (amended): passing `harmonics = 0` behaves identically to
omitting the argument — the default is chosen by truthiness, so any
falsy harmonics value is replaced by `⌊periodicity / 2⌋`; hence a
request for zero harmonics yields a zero-harmonic simulation exactly
when `⌊periodicity / 2⌋` is itself zero (periodicity below 2). -/
theorem harmonics_zero_same_as_default (p c : ℚ) (σ : ℝ) (noise : ℕ → ℝ) :
    simulate_seasonal_term p c σ (some 0) noise =
      simulate_seasonal_term p c σ none noise ∧
    effectiveHarmonics p (some 0) = ⌊p / 2⌋ := by
  have he : effectiveHarmonics p (some 0) = effectiveHarmonics p none := by
    simp [effectiveHarmonics]
  constructor
  · unfold simulate_seasonal_term
    rw [he]
  · simp [effectiveHarmonics]
